import Mathlib

/-!
Shallow embedding of the SCBert vectorization pipeline (`SCBert/SCBert.py`).

Tensors are modelled as size-annotated functions into `ℚ`: a 2-D hidden-state
tensor is a `Mat` (rows = sequence positions, cols = hidden features), a 1-D
tensor is a `Vec`, and an integer index tensor is an `IVec`.  Torch elementwise
operations broadcast a dimension when the two sizes agree or one of them is 1;
`ewise` reproduces that rule and returns `none` on a shape mismatch (torch
raises a runtime error there).  Python exceptions are modelled by `Err`;
`Except Err` carries them through `tokenize`, `forward_and_pool` and
`vectorize`.  The external encoder and tokenizer are parameters of the
embedded functions.
-/

namespace SCBert

/-- A 2-D torch tensor over exact rationals: `rows × cols` with a total entry
function (entries outside the declared bounds are irrelevant padding of the
model). -/
structure Mat where
  rows : Nat
  cols : Nat
  entry : Nat → Nat → ℚ

/-- A 1-D torch float tensor of length `n`. -/
structure Vec where
  n : Nat
  entry : Nat → ℚ

/-- A 1-D torch integer tensor of length `n` (the `indices` component of
`torch.max(..., axis=0)`). -/
structure IVec where
  n : Nat
  entry : Nat → Nat

/-- Python exceptions raised by the source: `TypeError` and `ValueError` are
the eager argument-validation failures (the spec's `ValidationError`
taxonomy); `runtimeError` stands for failures raised later, inside the batch
loop (empty `nonzero()` indexing, torch shape mismatches, `torch.max` on an
empty dimension). -/
inductive Err where
  | typeError (msg : String)
  | valueError (msg : String)
  | runtimeError (msg : String)
deriving DecidableEq, Repr

/-- A validation failure in the spec's taxonomy is a `TypeError` or
`ValueError` raised by the argument checks, as opposed to a runtime failure
inside the batch loop. -/
def Err.isValidation : Err → Bool
  | .typeError _ => true
  | .valueError _ => true
  | .runtimeError _ => false

/-- Torch broadcast rule for one dimension: sizes must agree or one must
be 1. -/
def bcastDim (a b : Nat) : Option Nat :=
  if a = b then some a
  else if a = 1 then some b
  else if b = 1 then some a
  else none

/-- Elementwise binary torch operation (`Tensor.add`, `torch.max(a, b)`) with
broadcasting; `none` models the RuntimeError on incompatible shapes. -/
def ewise (f : ℚ → ℚ → ℚ) (x y : Mat) : Option Mat :=
  match bcastDim x.rows y.rows, bcastDim x.cols y.cols with
  | some r, some c =>
      some ⟨r, c, fun i j =>
        f (x.entry (if x.rows = 1 then 0 else i) (if x.cols = 1 then 0 else j))
          (y.entry (if y.rows = 1 then 0 else i) (if y.cols = 1 then 0 else j))⟩
  | _, _ => none

/-- `torch.cat((x, y), dim=1)`: requires equal row counts; concatenating onto
the initial empty `torch.tensor([])` returns the other operand (legacy torch
special-cases tensors with zero elements). -/
def catCols (x y : Mat) : Option Mat :=
  if x.rows = 0 ∧ x.cols = 0 then some y
  else if x.rows = y.rows then
    some ⟨x.rows, x.cols + y.cols, fun i j =>
      if j < x.cols then x.entry i j else y.entry i (j - x.cols)⟩
  else none

/-- Maximum of a list of rationals, defined only on the structure of the list
(`0` for the empty list, which torch rejects separately). -/
def listMax : List ℚ → ℚ
  | [] => 0
  | x :: xs => xs.foldl max x

/-- Index of the first maximal element, tracking the running best value. -/
def argmaxFrom (best : ℚ) (bestIdx cur : Nat) : List ℚ → Nat
  | [] => bestIdx
  | x :: xs =>
      if best < x then argmaxFrom x cur (cur + 1) xs
      else argmaxFrom best bestIdx (cur + 1) xs

/-- Index of the first maximal element of a list. -/
def argmaxFirst : List ℚ → Nat
  | [] => 0
  | x :: xs => argmaxFrom x 0 1 xs

/-- The column values of a matrix as a list, top row first. -/
def colList (m : Mat) (j : Nat) : List ℚ :=
  (List.range m.rows).map (fun i => m.entry i j)

/-- `torch.mean(m, axis=0)`: per-column mean over the rows. -/
def tmean (m : Mat) : Vec :=
  ⟨m.cols, fun j => (colList m j).sum / (m.rows : ℚ)⟩

/-- The `values` component of `torch.max(m, axis=0)`. -/
def tmaxValues (m : Mat) : Vec :=
  ⟨m.cols, fun j => listMax (colList m j)⟩

/-- The `indices` component of `torch.max(m, axis=0)`. -/
def tmaxIndices (m : Mat) : IVec :=
  ⟨m.cols, fun j => argmaxFirst (colList m j)⟩

/-- Python `str.lower()` on one character (ASCII range, which covers every
method name compared against in the source). -/
def pyLowerChar (c : Char) : Char :=
  if 65 ≤ c.toNat ∧ c.toNat ≤ 90 then Char.ofNat (c.toNat + 32) else c

/-- Python `str.lower()`. -/
def pyLower (s : String) : String :=
  ⟨s.data.map pyLowerChar⟩

/-- Python slice `m[:k]` on the row dimension; a negative `k` counts from the
end and the result is clamped to the available rows. -/
def pySliceRows (k : Int) (m : Mat) : Mat :=
  ⟨if k < 0 then ((m.rows : Int) + k).toNat else min k.toNat m.rows,
   m.cols, m.entry⟩

/-- Python slice `m[1:]` on the row dimension. -/
def dropRowOne (m : Mat) : Mat :=
  ⟨m.rows - 1, m.cols, fun i j => m.entry (i + 1) j⟩

/-- The row span `m[:eos_pos-1][1:]` handed to sentence pooling
(`forward_and_pool`, lines 247 and 258 of the source). -/
def spanRows (eosPos : Nat) (m : Mat) : Mat :=
  dropRowOne (pySliceRows ((eosPos : Int) - 1) m)

/-- Index of the first `true` in a boolean mask: `mask.nonzero()[0]`, `none`
when the mask has no `true` (where the source raises an IndexError). -/
def nonzeroFirst : List Bool → Option Nat
  | [] => none
  | b :: bs => if b then some 0 else (nonzeroFirst bs).map (· + 1)

/-- True-length resolution of `forward_and_pool` (lines 242-245 and 253-257):
`eos_pos = 0` when the last id equals the literal `1` (the spec identifies
this with the tokenizer's End-Of-Sequence code), otherwise the index of the
first occurrence of `pad_id`, computed as
`(input_ids == pad_id).nonzero()[0]`. -/
def eos_pos (pad_id : Int) (ids : List Int) : Option Nat :=
  if ids.getLast? = some 1 then some 0
  else nonzeroFirst (ids.map (fun x => x == pad_id))

/-- Result of `__sentence_pooling`: `torch.mean` yields a tensor, but
`torch.max(vectors, axis=0)` yields the `(values, indices)` named tuple, and
an unrecognised method returns the initial `torch.tensor([])`. -/
inductive SPool where
  | emptyT
  | tensor (v : Vec)
  | pair (values : Vec) (indices : IVec)

/-- `__sentence_pooling` (source lines 102-125).  `none` models the torch
RuntimeError of `torch.max` over an empty dimension. -/
def sentence_pooling (vectors : Mat) (pooling_method : String) : Option SPool :=
  if pyLower pooling_method = "average" then
    some (.tensor (tmean vectors))
  else if pyLower pooling_method = "max" then
    if vectors.rows = 0 then none
    else some (.pair (tmaxValues vectors) (tmaxIndices vectors))
  else some .emptyT

/-- The accumulation loop `for layer in layers: pooled_words = op(pooled_words,
encoded_layers_b[layer][idx])` of `__word_pooling`, aborting at the first
torch shape error. -/
def foldPool (f : ℚ → ℚ → ℚ) (encoded_layers_b : Nat → Nat → Mat) (idx : Nat) :
    List Nat → Mat → Option Mat
  | [], acc => some acc
  | l :: rest, acc =>
    match ewise f acc (encoded_layers_b l idx) with
    | Option.none => Option.none
    | some acc2 => foldPool f encoded_layers_b idx rest acc2

/-- The concatenation loop of the `concat` branch of `__word_pooling`. -/
def foldCat (encoded_layers_b : Nat → Nat → Mat) (idx : Nat) :
    List Nat → Mat → Option Mat
  | [], acc => some acc
  | l :: rest, acc =>
    match catCols acc (encoded_layers_b l idx) with
    | Option.none => Option.none
    | some acc2 => foldCat encoded_layers_b idx rest acc2

/-- `__word_pooling` (source lines 127-159).  `encoded_layers_b l idx` is the
hidden-state matrix of layer `l` for in-batch document `idx`.  The `average`
and `max` branches accumulate into pre-allocated `256 × 768` placeholders of
zeros resp. `-100` sentinels; `none` models the torch shape errors of the
elementwise operations. -/
def word_pooling (encoded_layers_b : Nat → Nat → Mat) (layers : List Nat)
    (idx : Nat) (pooling_method : String) : Option Mat :=
  if pyLower pooling_method = "concat" then
    foldCat encoded_layers_b idx layers ⟨0, 0, fun _ _ => 0⟩
  else if pyLower pooling_method = "average" then
    (foldPool (fun a b => a + b) encoded_layers_b idx layers
        (⟨256, 768, fun _ _ => 0⟩ : Mat)).map
      (fun p => ⟨p.rows, p.cols, fun i j => p.entry i j / (layers.length : ℚ)⟩)
  else if pyLower pooling_method = "max" then
    foldPool max encoded_layers_b idx layers (⟨256, 768, fun _ _ => -100⟩ : Mat)
  else some ⟨0, 0, fun _ _ => 0⟩

/-- A Python value inspected with `type(el) != int` inside the `layers` list:
either an int or some non-int object. -/
inductive PyObj where
  | int (n : Int)
  | nonint
deriving DecidableEq, Repr

/-- The dynamically-typed `layers` argument: an int, a list, or any other
object. -/
inductive LayersArg where
  | int (n : Int)
  | list (l : List PyObj)
  | nonint
deriving DecidableEq, Repr

/-- The dynamically-typed `batch_size` argument. -/
inductive BatchArg where
  | int (n : Int)
  | nonint
deriving DecidableEq, Repr

/-- The dynamically-typed `path_to_save` argument: `None`, a string, or any
other object. -/
inductive PathArg where
  | none
  | str (s : String)
  | other
deriving DecidableEq, Repr

/-- True when `path_to_save` is neither a string nor `None` (source line
215). -/
def PathArg.bad : PathArg → Bool
  | .other => true
  | _ => false

/-- The per-element loop of the `layers` list validation (source lines
221-225): the first element that is not an int raises `TypeError`, the first
int outside `[1, 12]` raises `ValueError`; an exhausted loop raises
nothing. -/
def checkLayerList : List PyObj → Option Err
  | [] => Option.none
  | .nonint :: _ =>
      some (.typeError "layers must be a int between 1 and 12 or a list of integers between 1 and 12")
  | .int n :: rest =>
      if n > 12 ∨ n < 1 then
        some (.valueError "layers must be a int between 1 and 12 or a list of integers between 1 and 12")
      else checkLayerList rest

/-- The `layers` check of the validation (source lines 218-230). -/
def checkLayers : LayersArg → Option Err
  | .list l => checkLayerList l
  | .int n =>
      if n > 12 ∨ n < 1 then
        some (.valueError "layers must be a int between 1 and 12 or a list of integers between 1 and 12")
      else Option.none
  | .nonint =>
      some (.typeError "layers must be a int between 1 and 12 or alist of integers between 1 and 12")

/-- The validation checks that follow the `type(batch_size)` test, for an
integer `batch_size` (source lines 212-230). -/
def validateTail (b : Int) (path_to_save : PathArg) (layers : LayersArg) : Option Err :=
  if b ≤ 0 then some (.valueError "batch_size must be a positive integer")
  else if path_to_save.bad then some (.typeError "path_to_save must be None or a string")
  else checkLayers layers

/-- The eager argument validation of `forward_and_pool` (source lines
202-230), returning the first exception raised, in source order. -/
def validate (sentence_pooling_method word_pooling_method : String)
    (batch_size : BatchArg) (path_to_save : PathArg) (layers : LayersArg) : Option Err :=
  if ¬ (sentence_pooling_method = "average" ∨ sentence_pooling_method = "max") then
    some (.valueError "sentence_pooling_method must be equal to average or max")
  else if ¬ (word_pooling_method = "average" ∨ word_pooling_method = "max" ∨
      word_pooling_method = "concat") then
    some (.valueError "word_pooling_method must be equal to average, max or concat")
  else
    match batch_size with
    | .nonint => some (.typeError "batch_size must be a positive integer")
    | .int b => validateTail b path_to_save layers

/-- The `layers` argument after validation: the scalar code path or the
layer-list code path of the batch loop. -/
inductive LayRes where
  | scalar (l : Nat)
  | list (ls : List Nat)

/-- One element appended to `texts_vectors`.  The layer-list path appends the
`__sentence_pooling` result as a whole; the scalar-layer path iterates
`enumerate(pooled_vectors)` and appends each component: every coordinate of a
mean vector as a 0-dim scalar tensor, or the `values` and `indices` tensors
of a `torch.max` named tuple. -/
inductive Entry where
  | pool (p : SPool)
  | scalar (q : ℚ)
  | vec (v : Vec)
  | ivec (v : IVec)

/-- True for a 0-dim scalar tensor entry. -/
def Entry.isScalar : Entry → Bool
  | .scalar _ => true
  | _ => false

/-- The entries appended for one document by the scalar-layer path (source
lines 259-260): `for i, sentence in enumerate(pooled_vectors):
texts_vectors.append(pooled_vectors[i])`. -/
def scalarPathEntries : SPool → List Entry
  | .emptyT => []
  | .tensor v => (List.range v.n).map (fun i => Entry.scalar (v.entry i))
  | .pair a b => [Entry.vec a, Entry.ivec b]

/-- The starts of the contiguous batches `range(0, N, batch_size)` produced
by `__batch` (source lines 161-164). -/
def chunkStarts (n k : Nat) : List Nat :=
  (List.range n).filter (fun i => i % k = 0)

/-- The document indices of the batch starting at `s`:
`range(0, N)[s : s + k]`. -/
def chunkAt (n k s : Nat) : List Nat :=
  ((List.range n).drop s).take k

/-- The per-document body of the batch loop (source lines 240-260).  `hs l i`
is the hidden state of layer `l` for the `i`-th document of the current
batch; `s` is the running `counter` (the batch start). -/
def runDocs (pad_id : Int) (ids : List (List Int)) (hs : Nat → Nat → Mat) (s : Nat)
    (spm wpm : String) (lay : LayRes) : List Nat → Except Err (List Entry)
  | [] => .ok []
  | idx :: rest =>
    match eos_pos pad_id (ids.getD idx []) with
    | Option.none => .error (.runtimeError "index 0 is out of bounds")
    | some e =>
      match lay with
      | .list ls =>
        match word_pooling hs ls (idx - s) wpm with
        | Option.none => .error (.runtimeError "tensor shape mismatch")
        | some wv =>
          match sentence_pooling (spanRows e wv) spm with
          | Option.none => .error (.runtimeError "max on empty span")
          | some p =>
            (runDocs pad_id ids hs s spm wpm (.list ls) rest).map
              (fun es => Entry.pool p :: es)
      | .scalar l =>
        match sentence_pooling (spanRows e (hs l (idx - s))) spm with
        | Option.none => .error (.runtimeError "max on empty span")
        | some p =>
          (runDocs pad_id ids hs s spm wpm (.scalar l) rest).map
            (fun es => scalarPathEntries p ++ es)

/-- The batch loop of `forward_and_pool` (source lines 235-262), also
counting the encoder inference calls made. -/
def runBatches (model : List (List Int) → List (List Int) → Nat → Nat → Mat)
    (pad_id : Int) (ids : List (List Int)) (masks : List (List ℚ)) (n k : Nat)
    (spm wpm : String) (lay : LayRes) :
    List Nat → List Entry → Nat → Except Err (List Entry) × Nat
  | [], acc, calls => (.ok acc, calls)
  | s :: rest, acc, calls =>
    let b := chunkAt n k s
    let hs := model (b.map (fun i => ids.getD i []))
      (b.map (fun i => (masks.getD i []).map Rat.floor))
    match runDocs pad_id ids hs s spm wpm lay b with
    | .error e => (.error e, calls + 1)
    | .ok es => runBatches model pad_id ids masks n k spm wpm lay rest (acc ++ es) (calls + 1)

/-- `forward_and_pool` (source lines 166-267).  `model batchIds batchMasks`
abstracts `self.model(input_ids_tensor[b], masks_tensor[b].to(torch.int64))[1]`,
yielding layer and in-batch-index selectable hidden-state matrices.  The
second component of the result counts the encoder inference calls made. -/
def forward_and_pool (model : List (List Int) → List (List Int) → Nat → Nat → Mat)
    (pad_id : Int) (input_ids_tensor : List (List Int)) (masks_tensor : List (List ℚ))
    (sentence_pooling_method word_pooling_method : String) (layers : LayersArg)
    (batch_size : BatchArg) (path_to_save : PathArg) : Except Err (List Entry) × Nat :=
  match validate sentence_pooling_method word_pooling_method batch_size path_to_save layers with
  | some e => (.error e, 0)
  | Option.none =>
    let n := input_ids_tensor.length
    let k := match batch_size with | .int b => b.toNat | .nonint => 0
    let lay := match layers with
      | .int l => LayRes.scalar l.toNat
      | .list l => LayRes.list (l.map (fun el => match el with | .int v => v.toNat | .nonint => 0))
      | .nonint => LayRes.scalar 0
    runBatches model pad_id input_ids_tensor masks_tensor n k
      sentence_pooling_method word_pooling_method lay (chunkStarts n k) [] 0

/-- `tokenize` (source lines 60-100).  `tok` and `enc` abstract the external
subword tokenizer's `tokenize` and `encode(max_length=MAX_LEN, ...)`;
the attention mask of a sequence is `float(i != pad_id)` elementwise.  The
source contains no validation, so no branch of this definition fails. -/
def tokenize (tok : String → List String) (enc : String → Int → List Int)
    (pad_id : Int) (data : List String) (MAX_LEN : Int) :
    Except Err (List (List String) × List (List Int) × List (List ℚ)) :=
  let tokenized_texts := data.map tok
  let input_ids := data.map (fun text => enc text MAX_LEN)
  let attention_masks := input_ids.map (fun seq => seq.map (fun i => if i ≠ pad_id then (1 : ℚ) else 0))
  .ok (tokenized_texts, input_ids, attention_masks)

/-- `vectorize` (source lines 270-309): `tokenize` then `forward_and_pool`. -/
def vectorize (tok : String → List String) (enc : String → Int → List Int)
    (model : List (List Int) → List (List Int) → Nat → Nat → Mat) (pad_id : Int)
    (data : List String) (MAX_LEN : Int) (spm wpm : String) (layers : LayersArg)
    (batch_size : BatchArg) (path_to_save : PathArg) : Except Err (List Entry) × Nat :=
  match tokenize tok enc pad_id data MAX_LEN with
  | .error e => (.error e, 0)
  | .ok (_, input_ids_tensor, masks_tensor) =>
    forward_and_pool model pad_id input_ids_tensor masks_tensor spm wpm layers batch_size path_to_save

/-- The produced `texts_vectors` list of a pipeline result (empty on
error). -/
def resList : Except Err (List Entry) × Nat → List Entry
  | (.ok l, _) => l
  | (.error _, _) => []

/-- True when the pipeline returned without an exception. -/
def resultOk : Except Err (List Entry) × Nat → Bool
  | (.ok _, _) => true
  | (.error _, _) => false

/-- The rational value of a 0-dim scalar entry. -/
def entryScalarVal : Entry → Option ℚ
  | .scalar q => some q
  | _ => Option.none

/-- Coordinate `k` of a plain 1-D vector entry. -/
def entryVecAt (k : Nat) : Entry → Option ℚ
  | .pool (.tensor v) => some (v.entry k)
  | .vec v => some (v.entry k)
  | _ => Option.none

/-! ## Helper lemmas -/

theorem nonzeroFirst_map_eq_some (pad : Int) (ids : List Int) (i : Nat) :
    nonzeroFirst (ids.map (fun x => x == pad)) = some i ↔
      (ids[i]? = some pad ∧ ∀ j, j < i → ids[j]? ≠ some pad) := by
  induction ids generalizing i with
  | nil => simp [nonzeroFirst]
  | cons a as ih =>
    by_cases ha : a = pad
    · have hb : (a == pad) = true := by simp [ha]
      simp only [List.map_cons, nonzeroFirst, hb, if_true]
      cases i with
      | zero => simp [ha]
      | succ k =>
        constructor
        · intro h; exact absurd h (by simp)
        · rintro ⟨-, hall⟩
          have h0 := hall 0 (Nat.succ_pos k)
          simp [ha] at h0
    · have hb : (a == pad) = false := by simp [ha]
      simp only [List.map_cons, nonzeroFirst, hb, Bool.false_eq_true, if_false]
      cases i with
      | zero =>
        constructor
        · intro h
          rcases Option.map_eq_some'.1 h with ⟨k2, -, hk2⟩
          exact absurd hk2 (by omega)
        · rintro ⟨h0, -⟩
          simp at h0
          exact absurd h0 ha
      | succ k =>
        have hmap : ((nonzeroFirst (as.map (fun x => x == pad))).map (· + 1) = some (k + 1)) ↔
            nonzeroFirst (as.map (fun x => x == pad)) = some k := by
          cases hnz : nonzeroFirst (as.map (fun x => x == pad)) with
          | none => simp
          | some k2 => simp
        rw [hmap, ih k]
        constructor
        · rintro ⟨h1, h2⟩
          refine ⟨by simpa using h1, ?_⟩
          intro j hj
          cases j with
          | zero => simpa using ha
          | succ j2 => simpa using h2 j2 (by omega)
        · rintro ⟨h1, h2⟩
          refine ⟨by simpa using h1, ?_⟩
          intro j hj
          simpa using h2 (j + 1) (by omega)

theorem checkLayerList_validation (l : List PyObj) (e : Err)
    (h : checkLayerList l = some e) : e.isValidation = true := by
  induction l with
  | nil => simp [checkLayerList] at h
  | cons x rest ih =>
    cases x with
    | nonint =>
      simp only [checkLayerList, Option.some.injEq] at h
      simp [← h, Err.isValidation]
    | int v =>
      by_cases hv : v > 12 ∨ v < 1
      · rw [checkLayerList, if_pos hv] at h
        simp [← Option.some.inj h, Err.isValidation]
      · rw [checkLayerList, if_neg hv] at h
        exact ih h

theorem checkLayers_validation (layers : LayersArg) (e : Err)
    (h : checkLayers layers = some e) : e.isValidation = true := by
  unfold checkLayers at h
  split at h
  · exact checkLayerList_validation _ _ h
  · split at h
    · simp [← Option.some.inj h, Err.isValidation]
    · exact absurd h (by simp)
  · simp [← Option.some.inj h, Err.isValidation]

theorem validateTail_validation (b : Int) (pts : PathArg) (layers : LayersArg)
    (e : Err) (h : validateTail b pts layers = some e) : e.isValidation = true := by
  unfold validateTail at h
  split at h
  · simp [← Option.some.inj h, Err.isValidation]
  · split at h
    · simp [← Option.some.inj h, Err.isValidation]
    · exact checkLayers_validation _ _ h

theorem validate_isValidation (spm wpm : String) (bs : BatchArg) (pts : PathArg)
    (layers : LayersArg) (e : Err)
    (h : validate spm wpm bs pts layers = some e) : e.isValidation = true := by
  unfold validate at h
  split at h
  · simp [← Option.some.inj h, Err.isValidation]
  · split at h
    · simp [← Option.some.inj h, Err.isValidation]
    · split at h
      · simp [← Option.some.inj h, Err.isValidation]
      · exact validateTail_validation _ _ _ _ h

theorem ewise_some_dims (f : ℚ → ℚ → ℚ) (x y : Mat) (hx : x.rows = 256)
    (hxc : x.cols = 768) (hyc : y.cols = 768) (hyr : y.rows = 256 ∨ y.rows = 1) :
    ∃ z, ewise f x y = some z ∧ z.rows = 256 ∧ z.cols = 768 := by
  unfold ewise bcastDim
  rcases hyr with h | h <;> rw [hx, hxc, hyc, h] <;> norm_num

theorem ewise_none_of_rows (f : ℚ → ℚ → ℚ) (x y : Mat) (hx : x.rows = 256)
    (h1 : y.rows ≠ 256) (h2 : y.rows ≠ 1) : ewise f x y = Option.none := by
  unfold ewise bcastDim
  rw [hx]
  rw [if_neg (fun hc => h1 hc.symm), if_neg (by norm_num), if_neg h2]

theorem ewise_same_entries (f : ℚ → ℚ → ℚ) (x y : Mat) (hx : x.rows = 256)
    (hxc : x.cols = 768) (hy : y.rows = 256) (hyc : y.cols = 768) :
    ∃ z, ewise f x y = some z ∧ z.rows = 256 ∧ z.cols = 768 ∧
      ∀ i j, z.entry i j = f (x.entry i j) (y.entry i j) := by
  unfold ewise bcastDim
  rw [hx, hxc, hy, hyc]
  norm_num

theorem foldPool_some (f : ℚ → ℚ → ℚ) (enc : Nat → Nat → Mat) (idx s : Nat)
    (hr : ∀ l, (enc l idx).rows = s) (hc : ∀ l, (enc l idx).cols = 768)
    (hs : s = 256 ∨ s = 1) :
    ∀ (layers : List Nat) (acc : Mat), acc.rows = 256 → acc.cols = 768 →
      ∃ r, foldPool f enc idx layers acc = some r ∧ r.rows = 256 ∧ r.cols = 768 := by
  intro layers
  induction layers with
  | nil => exact fun acc h1 h2 => ⟨acc, rfl, h1, h2⟩
  | cons x xs ih =>
    intro acc h1 h2
    have hyr : (enc x idx).rows = 256 ∨ (enc x idx).rows = 1 := by
      rcases hs with h | h <;> rw [hr x, h] <;> simp
    obtain ⟨z, hz, hzr, hzc⟩ := ewise_some_dims f acc (enc x idx) h1 h2 (hc x) hyr
    obtain ⟨r, hfold, hrr, hrc⟩ := ih z hzr hzc
    exact ⟨r, by rw [foldPool, hz]; exact hfold, hrr, hrc⟩

theorem foldPool_none_of_rows (f : ℚ → ℚ → ℚ) (enc : Nat → Nat → Mat) (idx s : Nat)
    (hr : ∀ l, (enc l idx).rows = s) (h1 : s ≠ 256) (h2 : s ≠ 1)
    (x : Nat) (xs : List Nat) (acc : Mat) (hacc : acc.rows = 256) :
    foldPool f enc idx (x :: xs) acc = Option.none := by
  rw [foldPool, ewise_none_of_rows f acc (enc x idx) hacc (by rw [hr x]; exact h1)
    (by rw [hr x]; exact h2)]

theorem foldPool_entries (f : ℚ → ℚ → ℚ) (enc : Nat → Nat → Mat) (idx : Nat) :
    ∀ (layers : List Nat) (acc : Mat), acc.rows = 256 → acc.cols = 768 →
      (∀ l ∈ layers, (enc l idx).rows = 256 ∧ (enc l idx).cols = 768) →
      ∃ r, foldPool f enc idx layers acc = some r ∧ r.rows = 256 ∧ r.cols = 768 ∧
        ∀ i j, r.entry i j =
          layers.foldl (fun q l => f q ((enc l idx).entry i j)) (acc.entry i j) := by
  intro layers
  induction layers with
  | nil => exact fun acc h1 h2 _ => ⟨acc, rfl, h1, h2, fun i j => rfl⟩
  | cons x xs ih =>
    intro acc h1 h2 hm
    obtain ⟨z, hz, hzr, hzc, hze⟩ := ewise_same_entries f acc (enc x idx) h1 h2
      (hm x (List.mem_cons_self x xs)).1 (hm x (List.mem_cons_self x xs)).2
    obtain ⟨r, hfold, hrr, hrc, hre⟩ := ih z hzr hzc
      (fun l hl => hm l (List.mem_cons_of_mem x hl))
    refine ⟨r, by rw [foldPool, hz]; exact hfold, hrr, hrc, ?_⟩
    intro i j
    rw [hre i j, hze i j, List.foldl_cons]

theorem foldl_max_pull (v : Nat → ℚ) (l : List Nat) (a b : ℚ) :
    l.foldl (fun q x => max q (v x)) (max a b) =
      max a (l.foldl (fun q x => max q (v x)) b) := by
  induction l generalizing b with
  | nil => rfl
  | cons x xs ih =>
    simp only [List.foldl_cons]
    rw [max_assoc, ih (max b (v x))]

theorem foldl_max_lt (v : Nat → ℚ) (l : List Nat) (c b : ℚ) (hb : b < c)
    (h : ∀ x ∈ l, v x < c) : l.foldl (fun q x => max q (v x)) b < c := by
  induction l generalizing b with
  | nil => exact hb
  | cons x xs ih =>
    simp only [List.foldl_cons]
    exact ih (max b (v x)) (max_lt hb (h x (List.mem_cons_self x xs)))
      (fun y hy => h y (List.mem_cons_of_mem x hy))

theorem foldl_max_const (v : Nat → ℚ) (l : List Nat) (c : ℚ)
    (h : ∀ x ∈ l, v x ≤ c) : l.foldl (fun q x => max q (v x)) c = c := by
  induction l with
  | nil => rfl
  | cons x xs ih =>
    simp only [List.foldl_cons]
    rw [max_eq_left (h x (List.mem_cons_self x xs))]
    exact ih (fun y hy => h y (List.mem_cons_of_mem x hy))

/-! ## Claim C2: true-length resolution -/

/-- C2: for every id sequence, when the last position equals the end-marker
id `1` the code sets `eos_pos = 0` without searching for a pad token; in
every other case `eos_pos` is `some i` exactly when `i` is the index of the
first occurrence of `pad_id` in the sequence. -/
theorem C2_eos_pos_first_pad (pad_id : Int) (ids : List Int) :
    (ids.getLast? = some 1 → eos_pos pad_id ids = some 0) ∧
    (ids.getLast? ≠ some 1 → ∀ i : Nat,
      (eos_pos pad_id ids = some i ↔
        (ids[i]? = some pad_id ∧ ∀ j, j < i → ids[j]? ≠ some pad_id))) := by
  constructor
  · intro h
    simp [eos_pos, h]
  · intro h i
    rw [eos_pos, if_neg h]
    exact nonzeroFirst_map_eq_some pad_id ids i

/-- C2 witness: evaluation of `eos_pos` through the theorem at concrete
flaubert-style inputs (pad id 2): an id sequence ending in the end marker,
and a padded one whose first pad sits at index 3. -/
theorem C2_eos_pos_first_pad_w :
    eos_pos 2 [0, 5, 1] = some 0 ∧ eos_pos 2 [0, 5, 6, 2, 2] = some 3 :=
  ⟨(C2_eos_pos_first_pad 2 [0, 5, 1]).1 rfl,
   ((C2_eos_pos_first_pad 2 [0, 5, 6, 2, 2]).2 (by decide) 3).mpr (by decide)⟩

/-! ## Claim C3: sentence pooling span -/

/-- C3: the row span `[:eos_pos-1][1:]` handed to sentence pooling (by both
pooling branches) drops the first and the last row of the true-content
candidate `[0, eos_pos)`: it has `eos_pos - 2` rows and its row `i` is row
`i + 1` of the candidate; and for `eos_pos = 0` (the unpadded special case)
it is the whole array minus its first and last rows. -/
theorem C3_span_excludes_markers (m : Mat) (e : Nat) (h1 : 1 ≤ e) (h2 : e ≤ m.rows) :
    ((spanRows e m).rows = e - 2 ∧
      ∀ i j, (spanRows e m).entry i j = m.entry (i + 1) j) ∧
    ((spanRows 0 m).rows = m.rows - 2 ∧
      ∀ i j, (spanRows 0 m).entry i j = m.entry (i + 1) j) := by
  refine ⟨⟨?_, fun i j => rfl⟩, ⟨?_, fun i j => rfl⟩⟩
  · show (pySliceRows ((e : Int) - 1) m).rows - 1 = e - 2
    rw [pySliceRows, if_neg (by omega)]
    show min ((e : Int) - 1).toNat m.rows - 1 = e - 2
    omega
  · show (pySliceRows ((0 : Int) - 1) m).rows - 1 = m.rows - 2
    rw [pySliceRows, if_pos (by omega)]
    show ((m.rows : Int) + ((0 : Int) - 1)).toNat - 1 = m.rows - 2
    omega

/-- A concrete `8 × 4` word-vector matrix used to instantiate C3. -/
def matC3 : Mat := ⟨8, 4, fun i j => (i : ℚ) + j⟩

/-- C3 witness: for true length 5 the pooled span of `matC3` covers exactly
3 positions, shifted past the leading marker. -/
theorem C3_span_excludes_markers_w :
    (((spanRows 5 matC3).rows = 5 - 2 ∧
        ∀ i j, (spanRows 5 matC3).entry i j = matC3.entry (i + 1) j) ∧
      ((spanRows 0 matC3).rows = matC3.rows - 2 ∧
        ∀ i j, (spanRows 0 matC3).entry i j = matC3.entry (i + 1) j)) :=
  C3_span_excludes_markers matC3 5 (by decide) (by decide)

/-! ## Claim C4: max sentence pooling returns a named tuple -/

/-- The `values` component of a `__sentence_pooling` result when it is the
`torch.max` named tuple. -/
def valuesAt : Option SPool → Nat → Option ℚ
  | some (.pair a _), k => some (a.entry k)
  | _, _ => Option.none

/-- True when a `__sentence_pooling` result is the `torch.max` named tuple
rather than a tensor. -/
def isPairRes : Option SPool → Bool
  | some (.pair _ _) => true
  | _ => false

/-- True when a `__sentence_pooling` result is a plain tensor. -/
def isTensorRes : Option SPool → Bool
  | some (.tensor _) => true
  | _ => false

/-- Concrete word vectors `[[1, 2], [3, 1]]` (2 positions × 2 features). -/
def matC4 : Mat :=
  ⟨2, 2, fun i j => if i = 0 then (if j = 0 then 1 else 2) else (if j = 0 then 3 else 1)⟩

/-- C4 (code-bug evidence): on the word vectors `[[1, 2], [3, 1]]`,
`__sentence_pooling` with method `max` does not return a single vector: it
returns the `(values, indices)` named tuple of `torch.max(·, axis=0)`, whose
`values` component does hold the elementwise maxima 3 and 2. -/
theorem C4_max_pool_returns_tuple :
    isPairRes (sentence_pooling matC4 "max") = true ∧
    isTensorRes (sentence_pooling matC4 "max") = false ∧
    valuesAt (sentence_pooling matC4 "max") 0 = some 3 ∧
    valuesAt (sentence_pooling matC4 "max") 1 = some 2 := by
  refine ⟨rfl, rfl, by decide, by decide⟩

/-! ## Claim C6: layers validation -/

/-- A `layers` argument the validation accepts: an int in `[1, 12]`, or a
list (possibly empty) whose elements are all ints in `[1, 12]`. -/
def layersOk : LayersArg → Bool
  | .int n => decide (1 ≤ n ∧ n ≤ 12)
  | .list l => l.all (fun el => match el with
      | .int v => decide (1 ≤ v ∧ v ≤ 12)
      | .nonint => false)
  | .nonint => false

theorem checkLayerList_some_of_bad (l : List PyObj)
    (h : l.all (fun el => match el with
      | PyObj.int v => decide (1 ≤ v ∧ v ≤ 12)
      | PyObj.nonint => false) = false) :
    ∃ e, checkLayerList l = some e := by
  induction l with
  | nil => simp at h
  | cons x rest ih =>
    cases x with
    | nonint => exact ⟨_, rfl⟩
    | int v =>
      by_cases hv : v > 12 ∨ v < 1
      · exact ⟨_, by rw [checkLayerList, if_pos hv]⟩
      · rw [checkLayerList, if_neg hv]
        apply ih
        simp only [List.all_cons, Bool.and_eq_false_iff] at h
        rcases h with h | h
        · exact absurd h (by simp; omega)
        · exact h

/-- A concrete single-batch fixture model whose hidden states are `8 × 768`
matrices. -/
def modelSmall : List (List Int) → List (List Int) → Nat → Nat → Mat :=
  fun _ _ _ i => ⟨8, 768, fun r c => (r : ℚ) + c + i⟩

/-- One tokenized document (flaubert-style, pad id 2, true length 5) and its
attention mask. -/
def idsOne : List (List Int) := [[0, 10, 11, 12, 1, 2, 2, 2]]

/-- Attention mask matching `idsOne`. -/
def masksOne : List (List ℚ) := [[1, 1, 1, 1, 1, 0, 0, 0]]

/-- C6 counterexample: the empty `layers` list is NOT rejected.  It passes
validation, and the whole `forward_and_pool` call completes without raising,
returning one pooled entry (the for-loop over an empty list never runs any
check, and downstream the average branch divides by `len(layers) = 0`). -/
theorem C6_empty_layers_accepted :
    validate "average" "average" (.int 1) .none (.list []) = Option.none ∧
    resultOk (forward_and_pool modelSmall 2 idsOne masksOne
      "average" "average" (.list []) (.int 1) .none) = true ∧
    (resList (forward_and_pool modelSmall 2 idsOne masksOne
      "average" "average" (.list []) (.int 1) .none)).length = 1 := by
  refine ⟨rfl, rfl, rfl⟩

/-- C6 (amended): every `layers` argument that is neither an int in `[1, 12]`
nor a list of ints each in `[1, 12]` makes `forward_and_pool` fail with a
validation error (`TypeError`/`ValueError`); the empty list, however, is
accepted. -/
theorem C6_invalid_layers_rejected
    (model : List (List Int) → List (List Int) → Nat → Nat → Mat) (pad_id : Int)
    (ids : List (List Int)) (masks : List (List ℚ)) (spm wpm : String)
    (bs : BatchArg) (pts : PathArg) (layers : LayersArg)
    (h : layersOk layers = false) :
    ∃ e, (forward_and_pool model pad_id ids masks spm wpm layers bs pts).1 =
        Except.error e ∧ e.isValidation = true := by
  have hlay : ∃ e, checkLayers layers = some e := by
    cases layers with
    | list l => exact checkLayerList_some_of_bad l (by simpa [layersOk] using h)
    | int n =>
      have hn : n > 12 ∨ n < 1 := by
        simp [layersOk] at h; omega
      exact ⟨_, by rw [checkLayers, if_pos hn]⟩
    | nonint => exact ⟨_, rfl⟩
  have hval : ∃ e, validate spm wpm bs pts layers = some e := by
    unfold validate
    split
    · exact ⟨_, rfl⟩
    · split
      · exact ⟨_, rfl⟩
      · cases bs with
        | nonint => exact ⟨_, rfl⟩
        | int b =>
          show ∃ e, validateTail b pts layers = some e
          unfold validateTail
          by_cases hb : b ≤ 0
          · rw [if_pos hb]; exact ⟨_, rfl⟩
          · rw [if_neg hb]
            by_cases hp : pts.bad = true
            · rw [if_pos hp]; exact ⟨_, rfl⟩
            · rw [if_neg hp]; exact hlay
  obtain ⟨e, he⟩ := hval
  refine ⟨e, ?_, validate_isValidation _ _ _ _ _ _ he⟩
  unfold forward_and_pool
  rw [he]

/-- C6 witness: the out-of-range list `[13]` is rejected with a validation
error before any batch work. -/
theorem C6_invalid_layers_rejected_w :
    ∃ e, (forward_and_pool modelSmall 2 idsOne masksOne "average" "average"
        (.list [.int 13]) (.int 1) .none).1 = Except.error e ∧
      e.isValidation = true :=
  C6_invalid_layers_rejected modelSmall 2 idsOne masksOne "average" "average"
    (.int 1) .none (.list [.int 13]) (by decide)

/-! ## Claim C7: tokenize and max_len -/

/-- C7 counterexample: at `max_len = 0` (and any non-positive value)
`tokenize` does not fail: it returns its triple normally, because the source
contains no `max_len` validation at all. -/
theorem C7_tokenize_accepts_nonpositive :
    tokenize (fun _ => []) (fun _ _ => [0, 1]) 2 ["a"] 0 =
      Except.ok ([[]], [[0, 1]], [[1, 1]]) := rfl

/-- C7 (amended): `tokenize` performs no `max_len` validation: for every
`max_len` (non-positive included) and every external tokenizer it returns
its `(token strings, ids, attention masks)` triple and never raises. -/
theorem C7_tokenize_never_raises (tok : String → List String)
    (enc : String → Int → List Int) (pad_id : Int) (data : List String)
    (MAX_LEN : Int) :
    ∃ out, tokenize tok enc pad_id data MAX_LEN = Except.ok out :=
  ⟨_, rfl⟩

/-! ## Claim C8: batch_size validated before inference -/

/-- A `batch_size` argument the source rejects: a non-int, or an int `≤ 0`. -/
def batchBad : BatchArg → Bool
  | .nonint => true
  | .int n => decide (n ≤ 0)

/-- C8: for every invalid `batch_size` (non-integer, zero or negative),
`forward_and_pool` returns a validation error with the inference-call
counter at zero: the check fires eagerly, before any encoder call. -/
theorem C8_batch_size_fails_before_inference
    (model : List (List Int) → List (List Int) → Nat → Nat → Mat) (pad_id : Int)
    (ids : List (List Int)) (masks : List (List ℚ)) (spm wpm : String)
    (layers : LayersArg) (pts : PathArg) (bs : BatchArg)
    (h : batchBad bs = true) :
    ∃ e, forward_and_pool model pad_id ids masks spm wpm layers bs pts =
        (Except.error e, 0) ∧ e.isValidation = true := by
  have hval : ∃ e, validate spm wpm bs pts layers = some e := by
    unfold validate
    split
    · exact ⟨_, rfl⟩
    · split
      · exact ⟨_, rfl⟩
      · cases bs with
        | nonint => exact ⟨_, rfl⟩
        | int b =>
          have hb : b ≤ 0 := by simpa [batchBad] using h
          show ∃ e, validateTail b pts layers = some e
          unfold validateTail
          rw [if_pos hb]
          exact ⟨_, rfl⟩
  obtain ⟨e, he⟩ := hval
  refine ⟨e, ?_, validate_isValidation _ _ _ _ _ _ he⟩
  unfold forward_and_pool
  rw [he]

/-- C8 witness: `batch_size = 0` with otherwise valid arguments is rejected
with zero inference calls. -/
theorem C8_batch_size_fails_before_inference_w :
    ∃ e, forward_and_pool modelSmall 2 idsOne masksOne "average" "average"
        (.int 11) (.int 0) .none = (Except.error e, 0) ∧ e.isValidation = true :=
  C8_batch_size_fails_before_inference modelSmall 2 idsOne masksOne
    "average" "average" (.int 11) .none (.int 0) (by decide)

/-! ## Claim C9: the 256-row placeholder constrains the sequence length -/

/-- C9 counterexample: with per-layer hidden states of sequence length 1
(so `max_len = 1`, not 256), the elementwise add against the `256 × 768`
placeholder does NOT fail: torch broadcasting accepts the length-1
dimension, so `__word_pooling` succeeds. -/
theorem C9_length_one_broadcasts :
    (word_pooling (fun _ _ => ⟨1, 768, fun _ _ => 5⟩) [11] 0 "average").isSome = true := rfl

/-- C9 (amended): with a non-empty layer list and method `average` or `max`,
`__word_pooling` accumulates into the fixed `256 × 768` placeholder, so it
succeeds exactly when the per-layer hidden states have sequence length 256
or length 1 (broadcast); every other `max_len` makes the elementwise
operation fail. -/
theorem C9_wp_succeeds_iff_rows_256_or_1 (enc : Nat → Nat → Mat) (idx : Nat)
    (layers : List Nat) (s : Nat) (m : String)
    (hm : m = "average" ∨ m = "max") (hl : layers ≠ [])
    (hr : ∀ l, (enc l idx).rows = s) (hc : ∀ l, (enc l idx).cols = 768) :
    (word_pooling enc layers idx m).isSome = true ↔ (s = 256 ∨ s = 1) := by
  have main : ∀ f : ℚ → ℚ → ℚ, ∀ acc : Mat, acc.rows = 256 → acc.cols = 768 →
      ((foldPool f enc idx layers acc).isSome = true ↔ (s = 256 ∨ s = 1)) := by
    intro f acc h1 h2
    by_cases hs : s = 256 ∨ s = 1
    · obtain ⟨r, hrr, -, -⟩ := foldPool_some f enc idx s hr hc hs layers acc h1 h2
      simp [hrr, hs]
    · push_neg at hs
      cases layers with
      | nil => exact absurd rfl hl
      | cons x xs =>
        rw [foldPool_none_of_rows f enc idx s hr hs.1 hs.2 x xs acc h1]
        simp [hs.1, hs.2]
  rcases hm with rfl | rfl
  · rw [word_pooling, if_neg (by decide), if_pos (by decide)]
    rw [Option.isSome_map']
    exact main (fun a b => a + b) ⟨256, 768, fun _ _ => 0⟩ rfl rfl
  · rw [word_pooling, if_neg (by decide), if_neg (by decide), if_pos (by decide)]
    exact main max ⟨256, 768, fun _ _ => -100⟩ rfl rfl

/-- C9 witness: with sequence length 8 the add fails, through the theorem at
a concrete encoder. -/
theorem C9_wp_succeeds_iff_rows_256_or_1_w :
    (word_pooling (fun _ _ => ⟨8, 768, fun _ _ => 0⟩) [11] 0 "average").isSome = true ↔
      (8 = 256 ∨ 8 = 1) :=
  C9_wp_succeeds_iff_rows_256_or_1 (fun _ _ => ⟨8, 768, fun _ _ => 0⟩) 0 [11] 8
    "average" (Or.inl rfl) (by decide) (fun _ => rfl) (fun _ => rfl)

/-! ## Claim C10: max word pooling clamps at the -100 sentinel -/

/-- C10: with method `max` over a non-empty layer list and `256 × 768`
hidden states, the pooled word matrix exists and each coordinate is the
elementwise maximum across the selected layers clamped below at the `-100`
sentinel of the pre-allocated placeholder; in particular, a coordinate that
is below `-100` in every selected layer pools to `-100` instead of its true
maximum. -/
theorem C10_wp_max_clamps_at_sentinel (enc : Nat → Nat → Mat) (idx : Nat)
    (lh : Nat) (lt : List Nat)
    (hdim : ∀ l ∈ lh :: lt, (enc l idx).rows = 256 ∧ (enc l idx).cols = 768) :
    ∃ r, word_pooling enc (lh :: lt) idx "max" = some r ∧
      (∀ i j, r.entry i j =
        max (-100) (lt.foldl (fun q l => max q ((enc l idx).entry i j))
          ((enc lh idx).entry i j))) ∧
      (∀ i j, (∀ l ∈ lh :: lt, (enc l idx).entry i j < -100) →
        r.entry i j = -100) := by
  obtain ⟨r, hfold, -, -, hent⟩ := foldPool_entries max enc idx (lh :: lt)
    ⟨256, 768, fun _ _ => -100⟩ rfl rfl hdim
  refine ⟨r, ?_, ?_, ?_⟩
  · rw [word_pooling, if_neg (by decide), if_neg (by decide), if_pos (by decide)]
    exact hfold
  · intro i j
    rw [hent i j]
    show (lh :: lt).foldl (fun q l => max q ((enc l idx).entry i j)) (-100) = _
    rw [List.foldl_cons, foldl_max_pull]
  · intro i j hlt
    rw [hent i j]
    show (lh :: lt).foldl (fun q l => max q ((enc l idx).entry i j)) (-100) = -100
    rw [List.foldl_cons]
    have hmax : max (-100 : ℚ) ((enc lh idx).entry i j) = -100 :=
      max_eq_left (le_of_lt (hlt lh (List.mem_cons_self lh lt)))
    rw [hmax]
    exact foldl_max_const (fun l => (enc l idx).entry i j) lt (-100)
      (fun x hx => le_of_lt (hlt x (List.mem_cons_of_mem lh hx)))

/-- A concrete encoder whose hidden states sit entirely below the `-100`
sentinel, instantiating C10. -/
def encLow : Nat → Nat → Mat := fun _ _ => ⟨256, 768, fun _ _ => -200⟩

/-- C10 witness: pooling the constant `-200` hidden states of layer 3 with
method `max` yields `-100` at every coordinate, through the theorem. -/
theorem C10_wp_max_clamps_at_sentinel_w :
    ∃ r, word_pooling encLow [3] 0 "max" = some r ∧
      (∀ i j, r.entry i j =
        max (-100) (List.foldl (fun q l => max q ((encLow l 0).entry i j))
          ((encLow 3 0).entry i j) [])) ∧
      (∀ i j, (∀ l ∈ [3], (encLow l 0).entry i j < -100) → r.entry i j = -100) :=
  C10_wp_max_clamps_at_sentinel encLow 0 3 []
    (fun _ _ => ⟨rfl, rfl⟩)

/-! ## Loop lemmas for the scalar-layer and layer-list code paths -/

theorem runDocs_scalar_avg (pad_id : Int) (ids : List (List Int))
    (hs : Nat → Nat → Mat) (s L : Nat) (wpm : String)
    (hcols : ∀ l i, (hs l i).cols = 768) :
    ∀ docs : List Nat,
      (∀ idx ∈ docs, (eos_pos pad_id (ids.getD idx [])).isSome = true) →
      ∃ es, runDocs pad_id ids hs s "average" wpm (.scalar L) docs = .ok es ∧
        es.length = 768 * docs.length ∧ es.all Entry.isScalar = true := by
  intro docs
  induction docs with
  | nil => exact fun _ => ⟨[], rfl, by simp, rfl⟩
  | cons idx rest ih =>
    intro h
    obtain ⟨e, he⟩ := Option.isSome_iff_exists.1 (h idx (List.mem_cons_self idx rest))
    obtain ⟨es, hes, hlen, hsc⟩ := ih (fun i hi => h i (List.mem_cons_of_mem idx hi))
    have hsp : sentence_pooling (spanRows e (hs L (idx - s))) "average" =
        some (.tensor (tmean (spanRows e (hs L (idx - s))))) := by
      rw [sentence_pooling, if_pos (by decide)]
    have hn : (tmean (spanRows e (hs L (idx - s)))).n = 768 := hcols L (idx - s)
    refine ⟨scalarPathEntries (.tensor (tmean (spanRows e (hs L (idx - s))))) ++ es,
      ?_, ?_, ?_⟩
    · simp only [runDocs, he, hsp, hes, Except.map]
    · rw [List.length_append, hlen]
      have hone : (scalarPathEntries
          (.tensor (tmean (spanRows e (hs L (idx - s)))))).length = 768 := by
        show ((List.range (tmean (spanRows e (hs L (idx - s)))).n).map _).length = 768
        rw [List.length_map, List.length_range, hn]
      rw [hone, List.length_cons]
      ring
    · rw [List.all_append, hsc, Bool.and_true]
      show ((List.range (tmean (spanRows e (hs L (idx - s)))).n).map _).all _ = true
      simp [List.all_map, Entry.isScalar]

theorem runBatches_scalar_avg
    (model : List (List Int) → List (List Int) → Nat → Nat → Mat) (pad_id : Int)
    (ids : List (List Int)) (masks : List (List ℚ)) (n k : Nat) (wpm : String)
    (L : Nat) (hcols : ∀ a b l i, (model a b l i).cols = 768) :
    ∀ (starts : List Nat) (acc : List Entry) (calls : Nat),
      (∀ s ∈ starts, ∀ idx ∈ chunkAt n k s,
        (eos_pos pad_id (ids.getD idx [])).isSome = true) →
      ∃ l, runBatches model pad_id ids masks n k "average" wpm (.scalar L)
            starts acc calls = (.ok l, calls + starts.length) ∧
        l.length = acc.length + 768 * (starts.map (fun s => (chunkAt n k s).length)).sum ∧
        (acc.all Entry.isScalar = true → l.all Entry.isScalar = true) := by
  intro starts
  induction starts with
  | nil =>
    intro acc calls _
    exact ⟨acc, by rw [runBatches]; rfl, by simp, fun h => h⟩
  | cons s rest ih =>
    intro acc calls h
    obtain ⟨es, hes, hlen, hsc⟩ := runDocs_scalar_avg pad_id ids
      (model ((chunkAt n k s).map (fun i => ids.getD i []))
        ((chunkAt n k s).map (fun i => (masks.getD i []).map Rat.floor)))
      s L wpm (fun l i => hcols _ _ l i) (chunkAt n k s)
      (h s (List.mem_cons_self s rest))
    obtain ⟨l, hrb, hllen, hlsc⟩ := ih (acc ++ es) (calls + 1)
      (fun s2 hs2 => h s2 (List.mem_cons_of_mem s hs2))
    refine ⟨l, ?_, ?_, ?_⟩
    · simp only [runBatches, hes, hrb]
      congr 1
      simp only [List.length_cons]
      omega
    · rw [hllen, List.length_append, hlen]
      simp only [List.map_cons, List.sum_cons]
      ring
    · intro hacc
      exact hlsc (by rw [List.all_append, hacc, hsc, Bool.and_self])

theorem runDocs_list_avg (pad_id : Int) (ids : List (List Int))
    (hs : Nat → Nat → Mat) (s : Nat) (ls : List Nat)
    (hdims : ∀ l i, (hs l i).rows = 256 ∧ (hs l i).cols = 768) :
    ∀ docs : List Nat,
      (∀ idx ∈ docs, (eos_pos pad_id (ids.getD idx [])).isSome = true) →
      ∃ es, runDocs pad_id ids hs s "average" "average" (.list ls) docs = .ok es ∧
        es.length = docs.length ∧ ∀ en ∈ es, ∃ v, en = Entry.pool (.tensor v) := by
  intro docs
  induction docs with
  | nil => exact fun _ => ⟨[], rfl, rfl, by simp⟩
  | cons idx rest ih =>
    intro h
    obtain ⟨e, he⟩ := Option.isSome_iff_exists.1 (h idx (List.mem_cons_self idx rest))
    obtain ⟨es, hes, hlen, hform⟩ := ih (fun i hi => h i (List.mem_cons_of_mem idx hi))
    obtain ⟨p, hp, -, -⟩ := foldPool_some (fun a b => a + b) hs (idx - s) 256
      (fun l => (hdims l (idx - s)).1) (fun l => (hdims l (idx - s)).2)
      (Or.inl rfl) ls ⟨256, 768, fun _ _ => 0⟩ rfl rfl
    have hwp : word_pooling hs ls (idx - s) "average" =
        some ⟨p.rows, p.cols, fun i j => p.entry i j / (ls.length : ℚ)⟩ := by
      rw [word_pooling, if_neg (by decide), if_pos (by decide), hp]
      rfl
    have hsp : sentence_pooling
        (spanRows e (⟨p.rows, p.cols, fun i j => p.entry i j / (ls.length : ℚ)⟩ : Mat))
          "average" =
        some (.tensor (tmean (spanRows e
          (⟨p.rows, p.cols, fun i j => p.entry i j / (ls.length : ℚ)⟩ : Mat)))) := by
      rw [sentence_pooling, if_pos (by decide)]
    refine ⟨Entry.pool (.tensor (tmean (spanRows e
      (⟨p.rows, p.cols, fun i j => p.entry i j / (ls.length : ℚ)⟩ : Mat)))) :: es,
      ?_, ?_, ?_⟩
    · simp only [runDocs, he, hwp, hsp, hes, Except.map]
    · rw [List.length_cons, hlen]
      rfl
    · intro en hen
      rcases List.mem_cons.1 hen with rfl | hmem
      · exact ⟨_, rfl⟩
      · exact hform en hmem

theorem runBatches_list_avg
    (model : List (List Int) → List (List Int) → Nat → Nat → Mat) (pad_id : Int)
    (ids : List (List Int)) (masks : List (List ℚ)) (n k : Nat) (ls : List Nat)
    (hdims : ∀ a b l i, (model a b l i).rows = 256 ∧ (model a b l i).cols = 768) :
    ∀ (starts : List Nat) (acc : List Entry) (calls : Nat),
      (∀ s ∈ starts, ∀ idx ∈ chunkAt n k s,
        (eos_pos pad_id (ids.getD idx [])).isSome = true) →
      ∃ l, runBatches model pad_id ids masks n k "average" "average" (.list ls)
            starts acc calls = (.ok l, calls + starts.length) ∧
        l.length = acc.length + (starts.map (fun s => (chunkAt n k s).length)).sum := by
  intro starts
  induction starts with
  | nil =>
    intro acc calls _
    exact ⟨acc, by rw [runBatches]; rfl, by simp⟩
  | cons s rest ih =>
    intro acc calls h
    obtain ⟨es, hes, hlen, -⟩ := runDocs_list_avg pad_id ids
      (model ((chunkAt n k s).map (fun i => ids.getD i []))
        ((chunkAt n k s).map (fun i => (masks.getD i []).map Rat.floor)))
      s ls (fun l i => hdims _ _ l i) (chunkAt n k s)
      (h s (List.mem_cons_self s rest))
    obtain ⟨l, hrb, hllen⟩ := ih (acc ++ es) (calls + 1)
      (fun s2 hs2 => h s2 (List.mem_cons_of_mem s hs2))
    refine ⟨l, ?_, ?_⟩
    · simp only [runBatches, hes, hrb]
      congr 1
      simp only [List.length_cons]
      omega
    · rw [hllen, List.length_append, hlen]
      simp only [List.map_cons, List.sum_cons]
      ring

/-! ## Claim C1: the concrete three-document scenario -/

/-- The three scenario documents. -/
def dataScenario : List String :=
  ["le chat mange", "le chien court vite", "bonjour"]

/-- A stub of the external tokenizer encoding for the scenario: flaubert-style
ids (begin marker 0, end marker 1, pad 2) within `max_len = 8`; the third
document is the shortest, its first pad sits at index 3. -/
def encScenario : String -> Int -> List Int := fun t _ =>
  if t = "le chat mange" then [0, 10, 11, 12, 1, 2, 2, 2]
  else if t = "le chien court vite" then [0, 10, 13, 14, 15, 1, 2, 2]
  else [0, 16, 1, 2, 2, 2, 2, 2]

/-- The id sequences `encScenario` produces for `dataScenario`. -/
def idsScenario : List (List Int) :=
  [[0, 10, 11, 12, 1, 2, 2, 2], [0, 10, 13, 14, 15, 1, 2, 2], [0, 16, 1, 2, 2, 2, 2, 2]]

/-- The attention masks `tokenize` derives from `idsScenario` with pad id 2. -/
def masksScenario : List (List Rat) :=
  idsScenario.map (fun seq => seq.map (fun i => if i ≠ 2 then (1 : Rat) else 0))

/-- The scenario run: `vectorize` over the three documents with `max_len = 8`,
`batch_size = 2`, both pooling methods `average` and the scalar layer 11. -/
def runScenario : Except Err (List Entry) × Nat :=
  vectorize (fun _ => []) encScenario modelSmall 2 dataScenario 8
    "average" "average" (.int 11) (.int 2) .none

/-- C1 (code-bug evidence): the scenario run completes with exactly 2
inference calls, but its output is NOT three 768-wide vectors: the
scalar-layer path appends every coordinate of each pooled vector separately,
so the returned list holds `3 × 768 = 2304` 0-dim scalar entries. -/
theorem C1_scenario_output_flattened :
    resultOk runScenario = true ∧ runScenario.2 = 2 ∧
    (resList runScenario).length = 2304 ∧
    (resList runScenario).all Entry.isScalar = true := by
  have hrw : runScenario =
      runBatches modelSmall 2 idsScenario masksScenario 3 2 "average" "average"
        (LayRes.scalar 11) [0, 2] [] 0 := rfl
  obtain ⟨l, hrb, hlen, hsc⟩ := runBatches_scalar_avg modelSmall 2 idsScenario
    masksScenario 3 2 "average" 11 (fun _ _ _ _ => rfl) [0, 2] [] 0 (by decide)
  have hl2 : runScenario = (Except.ok l, 2) := by rw [hrw, hrb]; rfl
  refine ⟨by rw [hl2]; rfl, by rw [hl2], ?_, ?_⟩
  · show (resList runScenario).length = 2304
    rw [hl2]
    show l.length = 2304
    rw [hlen]
    rfl
  · rw [hl2]
    exact hsc rfl

/-! ## Claim C5: scalar layer versus singleton layer list -/

/-- A 256-token id sequence (true length 5, first pad at index 5), matching
the `max_len = 256` regime the layer-list path requires. -/
def idsFull : List Int := [0, 10, 11, 12, 1] ++ List.replicate 251 2

/-- A fixture encoder with `256 × 768` hidden states, identical for every
layer, so that the scalar path and the singleton-list path see the same
per-layer vectors. -/
def modelFull : List (List Int) -> List (List Int) -> Nat -> Nat -> Mat :=
  fun _ _ _ _ => ⟨256, 768, fun r c => (r : Rat) + c⟩

/-- The scalar-layer run over one document with `layers = 11`. -/
def runScalarOne : Except Err (List Entry) × Nat :=
  forward_and_pool modelFull 2 [idsFull] [[]] "average" "average"
    (.int 11) (.int 50) .none

/-- The layer-list run over the same document with `layers = [11]`. -/
def runListOne : Except Err (List Entry) × Nat :=
  forward_and_pool modelFull 2 [idsFull] [[]] "average" "average"
    (.list [.int 11]) (.int 50) .none

/-- C5 (code-bug evidence): on the same input, `layers = 11` and
`layers = [11]` with word pooling `average` do not produce equivalent
outputs: the singleton-list run appends one pooled vector for the document,
while the scalar run flattens the same pooled vector into 768 scalar
entries, even though the word vectors entering sentence pooling agree
coordinatewise (the averaged singleton equals the layer itself). -/
theorem C5_scalar_and_singleton_list_differ :
    (resList runScalarOne).length = 768 ∧
    (resList runScalarOne).all Entry.isScalar = true ∧
    (resList runListOne).length = 1 ∧
    resList runScalarOne ≠ resList runListOne ∧
    (∃ w, word_pooling (fun l i => modelFull [] [] l i) [11] 0 "average" = some w ∧
      ∀ i j, w.entry i j = (modelFull [] [] 11 0).entry i j) := by
  have hrwS : runScalarOne =
      runBatches modelFull 2 [idsFull] [[]] 1 50 "average" "average"
        (LayRes.scalar 11) [0] [] 0 := rfl
  have hrwL : runListOne =
      runBatches modelFull 2 [idsFull] [[]] 1 50 "average" "average"
        (LayRes.list [11]) [0] [] 0 := rfl
  obtain ⟨ls, hrbS, hlenS, hscS⟩ := runBatches_scalar_avg modelFull 2 [idsFull]
    [[]] 1 50 "average" 11 (fun _ _ _ _ => rfl) [0] [] 0 (by decide)
  obtain ⟨ll, hrbL, hlenL⟩ := runBatches_list_avg modelFull 2 [idsFull]
    [[]] 1 50 [11] (fun _ _ _ _ => ⟨rfl, rfl⟩) [0] [] 0 (by decide)
  have hS : runScalarOne = (Except.ok ls, 1) := by rw [hrwS, hrbS]; rfl
  have hL : runListOne = (Except.ok ll, 1) := by rw [hrwL, hrbL]; rfl
  have hlS : (resList runScalarOne).length = 768 := by
    rw [hS]; show ls.length = 768; rw [hlenS]; rfl
  have hlL : (resList runListOne).length = 1 := by
    rw [hL]; show ll.length = 1; rw [hlenL]; rfl
  refine ⟨hlS, by rw [hS]; exact hscS rfl, hlL, ?_, ?_⟩
  · intro heq
    rw [heq, hlL] at hlS
    exact absurd hlS (by decide)
  · obtain ⟨r, hfold, -, -, hent⟩ := foldPool_entries (fun a b => a + b)
      (fun l i => modelFull [] [] l i) 0 [11] ⟨256, 768, fun _ _ => 0⟩ rfl rfl
      (fun _ _ => ⟨rfl, rfl⟩)
    refine ⟨⟨r.rows, r.cols, fun i j => r.entry i j / (([11] : List Nat).length : Rat)⟩,
      ?_, ?_⟩
    · rw [word_pooling, if_neg (by decide), if_pos (by decide), hfold]
      rfl
    · intro i j
      show r.entry i j / _ = _
      rw [hent i j]
      show ((⟨256, 768, fun _ _ => 0⟩ : Mat).entry i j +
        (modelFull [] [] 11 0).entry i j) / ((1 : Nat) : Rat) = _
      norm_num

end SCBert
